import Mathlib

/-!
Verification of the persons/personas CRUD service
(`src/resources/images/persons_crud/src/main.rs` and
`src/resources/images/personas_crud/src/main.rs`).

The service is five HTTP handlers over a single SQLite table.  We embed it
shallowly: the table is a pure state (`Db` = list of rows plus the
AUTOINCREMENT sequence), each SQL statement is a pure function on that state,
and each handler is a function from (state, parsed request, optional storage
fault) to (state, response).  A response is a status code and a JSON body;
JSON values are a small inductive.  A storage fault (`some msg`) models the
`Err(e)` outcome of a query for reasons other than the uniqueness constraint
(which the model computes); `none` means the statement ran normally.
-/

/-- JSON values, as produced by `serde_json` in the handlers. -/
inductive Json where
  | jint : Int → Json
  | jstr : String → Json
  | jarr : List Json → Json
  | jobj : List (String × Json) → Json
deriving Repr

mutual

def Json.decEq : (a b : Json) → Decidable (a = b)
  | .jint x, .jint y =>
    match Int.decEq x y with
    | isTrue h => isTrue (by rw [h])
    | isFalse h => isFalse (fun hh => by cases hh; exact h rfl)
  | .jstr x, .jstr y =>
    match String.decEq x y with
    | isTrue h => isTrue (by rw [h])
    | isFalse h => isFalse (fun hh => by cases hh; exact h rfl)
  | .jarr x, .jarr y =>
    match Json.decEqList x y with
    | isTrue h => isTrue (by rw [h])
    | isFalse h => isFalse (fun hh => by cases hh; exact h rfl)
  | .jobj x, .jobj y =>
    match Json.decEqKvs x y with
    | isTrue h => isTrue (by rw [h])
    | isFalse h => isFalse (fun hh => by cases hh; exact h rfl)
  | .jint _, .jstr _ => isFalse (fun h => Json.noConfusion h)
  | .jint _, .jarr _ => isFalse (fun h => Json.noConfusion h)
  | .jint _, .jobj _ => isFalse (fun h => Json.noConfusion h)
  | .jstr _, .jint _ => isFalse (fun h => Json.noConfusion h)
  | .jstr _, .jarr _ => isFalse (fun h => Json.noConfusion h)
  | .jstr _, .jobj _ => isFalse (fun h => Json.noConfusion h)
  | .jarr _, .jint _ => isFalse (fun h => Json.noConfusion h)
  | .jarr _, .jstr _ => isFalse (fun h => Json.noConfusion h)
  | .jarr _, .jobj _ => isFalse (fun h => Json.noConfusion h)
  | .jobj _, .jint _ => isFalse (fun h => Json.noConfusion h)
  | .jobj _, .jstr _ => isFalse (fun h => Json.noConfusion h)
  | .jobj _, .jarr _ => isFalse (fun h => Json.noConfusion h)

def Json.decEqList : (a b : List Json) → Decidable (a = b)
  | [], [] => isTrue rfl
  | [], _ :: _ => isFalse (fun h => List.noConfusion h)
  | _ :: _, [] => isFalse (fun h => List.noConfusion h)
  | x :: xs, y :: ys =>
    match Json.decEq x y, Json.decEqList xs ys with
    | isTrue h1, isTrue h2 => isTrue (by rw [h1, h2])
    | isFalse h1, _ => isFalse (fun hh => by cases hh; exact h1 rfl)
    | _, isFalse h2 => isFalse (fun hh => by cases hh; exact h2 rfl)

def Json.decEqKvs : (a b : List (String × Json)) → Decidable (a = b)
  | [], [] => isTrue rfl
  | [], _ :: _ => isFalse (fun h => List.noConfusion h)
  | _ :: _, [] => isFalse (fun h => List.noConfusion h)
  | (k1, v1) :: xs, (k2, v2) :: ys =>
    match String.decEq k1 k2, Json.decEq v1 v2, Json.decEqKvs xs ys with
    | isTrue hk, isTrue hv, isTrue ht => isTrue (by rw [hk, hv, ht])
    | isFalse hk, _, _ => isFalse (fun hh => by cases hh; exact hk rfl)
    | _, isFalse hv, _ => isFalse (fun hh => by cases hh; exact hv rfl)
    | _, _, isFalse ht => isFalse (fun hh => by cases hh; exact ht rfl)

end

instance : DecidableEq Json := Json.decEq

/-- Rust struct `Person` (persons_crud, lines 19–27). -/
structure Person where
  id : Int
  first_name : String
  last_name : String
  dni : String
  address : String
deriving DecidableEq, Repr

/-- Rust struct `PersonRequest` (persons_crud, lines 29–36). -/
structure PersonRequest where
  first_name : String
  last_name : String
  dni : String
  address : String
deriving DecidableEq, Repr

/-- The store state: the `person` table rows plus the SQLite AUTOINCREMENT
sequence (largest rowid ever assigned; `inicializar_db` creates
`id INTEGER PRIMARY KEY AUTOINCREMENT`, so rowids are never reused). -/
structure Db where
  rows : List Person
  seq : Int
deriving DecidableEq, Repr

/-- The empty store produced by `inicializar_db` on a fresh database file. -/
def initDb : Db := { rows := [], seq := 0 }

/-- The SQLite message for a violation of the `UNIQUE` constraint placed on
the `dni` column by `inicializar_db`. -/
def uniqueViolationMsg (table : String) : String :=
  "UNIQUE constraint failed: " ++ table ++ ".dni"

/-- A handler response: HTTP status code and JSON body. -/
abbrev Response := Nat × Json

/-- Body `json!({ "error": e })`. -/
def errBody (e : String) : Json := Json.jobj [("error", Json.jstr e)]

/-- Body `json!({ "message": m })`. -/
def msgBody (m : String) : Json := Json.jobj [("message", Json.jstr m)]

/-- Body `json!({ "id": n })`. -/
def idBody (n : Int) : Json := Json.jobj [("id", Json.jint n)]

/-- serde serialization of `Person`: `#[serde(rename_all = "camelCase")]`
renames `first_name`/`last_name` to `firstName`/`lastName`; `id`, `dni`,
`address` keep their names.  Field order is declaration order. -/
def Person.toJson (p : Person) : Json :=
  Json.jobj [("id", Json.jint p.id),
             ("firstName", Json.jstr p.first_name),
             ("lastName", Json.jstr p.last_name),
             ("dni", Json.jstr p.dni),
             ("address", Json.jstr p.address)]

/-- Semantics of `INSERT INTO person (first_name, last_name, dni, address)
VALUES (?, ?, ?, ?)`: fails iff the new `dni` equals the `dni` of a live row
(the `UNIQUE` constraint); otherwise appends a row whose id is the next
AUTOINCREMENT value and returns `last_insert_rowid()`. -/
def dbInsert (db : Db) (q : PersonRequest) : Except String (Db × Int) :=
  if db.rows.any (fun r => r.dni == q.dni) then
    Except.error (uniqueViolationMsg "person")
  else
    let newId := db.seq + 1
    Except.ok ({ rows := db.rows ++
                   [{ id := newId, first_name := q.first_name,
                      last_name := q.last_name, dni := q.dni,
                      address := q.address }],
                 seq := newId }, newId)

/-- The row transformer applied by the UPDATE statement. -/
def updRow (idv : Int) (q : PersonRequest) (r : Person) : Person :=
  if r.id == idv then
    { id := r.id, first_name := q.first_name, last_name := q.last_name,
      dni := q.dni, address := q.address }
  else r

/-- Semantics of `UPDATE person SET first_name = ?, last_name = ?, dni = ?,
address = ? WHERE id = ?`: affects the rows matching `id`; fails iff a row is
affected and the new `dni` equals the `dni` of a different live row; returns
`rows_affected()`. -/
def dbUpdate (db : Db) (idv : Int) (q : PersonRequest) :
    Except String (Db × Nat) :=
  let n := db.rows.countP (fun r => r.id == idv)
  if n == 0 then
    Except.ok (db, 0)
  else if db.rows.any (fun r => r.id != idv && r.dni == q.dni) then
    Except.error (uniqueViolationMsg "person")
  else
    Except.ok ({ db with rows := db.rows.map (updRow idv q) }, n)

/-- Semantics of `DELETE FROM person WHERE id = ?`: removes the rows matching
`id` and returns `rows_affected()`. -/
def dbDelete (db : Db) (idv : Int) : Db × Nat :=
  ({ db with rows := db.rows.filter (fun r => r.id != idv) },
   db.rows.countP (fun r => r.id == idv))

/-- Semantics of `SELECT ... FROM person WHERE id = ?` with `fetch_optional`:
the first row matching `id`, if any. -/
def dbFind (db : Db) (idv : Int) : Option Person :=
  db.rows.find? (fun r => r.id == idv)

/-- Handler `crear_person` (persons_crud, lines 92–116).  `fault` models a
storage failure of the INSERT other than the uniqueness violation (which
`dbInsert` itself decides); the handler maps `Ok` to
`(201, {"id": last_insert_rowid})` and `Err(e)` to `(400, {"error": e})`. -/
def crear_person (db : Db) (payload : PersonRequest) (fault : Option String) :
    Db × Response :=
  match fault with
  | some e => (db, (400, errBody e))
  | none =>
    match dbInsert db payload with
    | Except.ok (db2, newId) => (db2, (201, idBody newId))
    | Except.error e => (db, (400, errBody e))

/-- Handler `listar_persons` (persons_crud, lines 118–137): `Ok(persons)` to
`(200, to_value(persons))`, `Err(e)` to `(500, {"error": e})`. -/
def listar_persons (db : Db) (fault : Option String) : Db × Response :=
  match fault with
  | some e => (db, (500, errBody e))
  | none => (db, (200, Json.jarr (db.rows.map Person.toJson)))

/-- Handler `obtener_person` (persons_crud, lines 139–164): `Ok(Some(p))` to
`(200, to_value(p))`, `Ok(None)` to `(404, {"error": "Person not found"})`,
`Err(e)` to `(500, {"error": e})`. -/
def obtener_person (db : Db) (idv : Int) (fault : Option String) :
    Db × Response :=
  match fault with
  | some e => (db, (500, errBody e))
  | none =>
    match dbFind db idv with
    | some p => (db, (200, p.toJson))
    | none => (db, (404, errBody "Person not found"))

/-- Handler `actualizar_person` (persons_crud, lines 166–196):
`Ok` with `rows_affected() > 0` to `(200, {"message": "Person updated"})`,
`Ok` otherwise to `(404, {"error": "Person not found"})`, `Err(e)` to
`(400, {"error": e})`. -/
def actualizar_person (db : Db) (idv : Int) (payload : PersonRequest)
    (fault : Option String) : Db × Response :=
  match fault with
  | some e => (db, (400, errBody e))
  | none =>
    match dbUpdate db idv payload with
    | Except.ok (db2, n) =>
      if n > 0 then (db2, (200, msgBody "Person updated"))
      else (db2, (404, errBody "Person not found"))
    | Except.error e => (db, (400, errBody e))

/-- Handler `eliminar_person` (persons_crud, lines 198–221):
`Ok` with `rows_affected() > 0` to `(200, {"message": "Person deleted"})`,
`Ok` otherwise to `(404, {"error": "Person not found"})`, `Err(e)` to
`(500, {"error": e})`. -/
def eliminar_person (db : Db) (idv : Int) (fault : Option String) :
    Db × Response :=
  match fault with
  | some e => (db, (500, errBody e))
  | none =>
    let (db2, n) := dbDelete db idv
    if n > 0 then (db2, (200, msgBody "Person deleted"))
    else (db2, (404, errBody "Person not found"))

/-- One parsed HTTP request, as dispatched by the router in `main`
(persons_crud, lines 52–59). -/
inductive Req where
  | create (payload : PersonRequest)
  | index
  | fetch (idv : Int)
  | update (idv : Int) (payload : PersonRequest)
  | remove (idv : Int)
deriving DecidableEq, Repr

/-- Dispatch one request to its handler. -/
def applyReq (db : Db) (r : Req) (fault : Option String) : Db × Response :=
  match r with
  | Req.create payload => crear_person db payload fault
  | Req.index => listar_persons db fault
  | Req.fetch idv => obtener_person db idv fault
  | Req.update idv payload => actualizar_person db idv payload fault
  | Req.remove idv => eliminar_person db idv fault

/-- The ids a response hands out: the `id` of a `201` create response. -/
def respAssigned : Response → List Int
  | (st, Json.jobj [("id", Json.jint n)]) => if st == 201 then [n] else []
  | _ => []

/-- Run a sequence of requests (each with its optional storage fault) and
collect every id ever assigned by a successful create. -/
def runAcc : Db → List (Req × Option String) → Db × List Int
  | db, [] => (db, [])
  | db, (r, f) :: rest =>
    let (db2, resp) := applyReq db r f
    let (dbF, ids) := runAcc db2 rest
    (dbF, respAssigned resp ++ ids)

/-- A store state is reachable when some request sequence starting from the
freshly initialized store produces it. -/
def Reachable (db : Db) : Prop :=
  ∃ t : List (Req × Option String), (runAcc initDb t).1 = db

/-- Store invariant: the sequence is nonnegative, row ids are pairwise
distinct, dni values are pairwise distinct, and every row id lies in
`[1, seq]`. -/
def Db.wf (db : Db) : Prop :=
  0 ≤ db.seq ∧
  (db.rows.map Person.id).Nodup ∧
  (db.rows.map Person.dni).Nodup ∧
  ∀ r ∈ db.rows, 1 ≤ r.id ∧ r.id ≤ db.seq

/-- A one-row store used to instantiate theorems with hypotheses. -/
def db1 : Db :=
  { rows := [{ id := 1, first_name := "Ana", last_name := "Diaz",
               dni := "111", address := "Calle 1" }],
    seq := 1 }

/-- The request whose creation from the empty store yields `db1`. -/
def req1 : PersonRequest :=
  { first_name := "Ana", last_name := "Diaz", dni := "111",
    address := "Calle 1" }

/-- The row built from a request by the INSERT (and UPDATE) statements. -/
def mkRow (n : Int) (q : PersonRequest) : Person :=
  { id := n, first_name := q.first_name, last_name := q.last_name,
    dni := q.dni, address := q.address }

/-- A second request with a distinct dni. -/
def req2 : PersonRequest :=
  { first_name := "Eva", last_name := "Gil", dni := "222",
    address := "Calle 2" }

/-- A third request with a distinct dni. -/
def req3 : PersonRequest :=
  { first_name := "Luz", last_name := "Paz", dni := "333",
    address := "Calle 3" }

/-- The JSON shape of a serialized Person: exactly the five keys `id`
(integer), `firstName`, `lastName`, `dni`, `address` (strings), in this
order. -/
def personShape (j : Json) : Prop :=
  ∃ (n : Int) (fn ln dn ad : String),
    j = Json.jobj [("id", Json.jint n), ("firstName", Json.jstr fn),
                   ("lastName", Json.jstr ln), ("dni", Json.jstr dn),
                   ("address", Json.jstr ad)]

/-- Rust struct `Persona` (personas_crud, lines 19–26); no serde rename, so
JSON keys are the Spanish field names. -/
structure Persona where
  id : Int
  nombres : String
  apellidos : String
  dni : String
  direccion : String
deriving DecidableEq, Repr

/-- Rust struct `PersonaRequest` (personas_crud, lines 28–34). -/
structure PersonaRequest where
  nombres : String
  apellidos : String
  dni : String
  direccion : String
deriving DecidableEq, Repr

/-- The store state of the Spanish variant (`persona` table). -/
structure DbEs where
  rows : List Persona
  seq : Int
deriving DecidableEq, Repr

/-- The empty Spanish store. -/
def initDbEs : DbEs := { rows := [], seq := 0 }

/-- serde serialization of `Persona`: field names are the keys. -/
def Persona.toJson (p : Persona) : Json :=
  Json.jobj [("id", Json.jint p.id),
             ("nombres", Json.jstr p.nombres),
             ("apellidos", Json.jstr p.apellidos),
             ("dni", Json.jstr p.dni),
             ("direccion", Json.jstr p.direccion)]

/-- The row built from a request by the Spanish INSERT/UPDATE. -/
def mkRowEs (n : Int) (q : PersonaRequest) : Persona :=
  { id := n, nombres := q.nombres, apellidos := q.apellidos,
    dni := q.dni, direccion := q.direccion }

/-- Semantics of `INSERT INTO persona ...` (personas_crud, lines 94–102). -/
def dbInsertEs (db : DbEs) (q : PersonaRequest) : Except String (DbEs × Int) :=
  if db.rows.any (fun r => r.dni == q.dni) then
    Except.error (uniqueViolationMsg "persona")
  else
    let newId := db.seq + 1
    Except.ok ({ rows := db.rows ++ [mkRowEs newId q], seq := newId }, newId)

/-- The row transformer applied by the Spanish UPDATE. -/
def updRowEs (idv : Int) (q : PersonaRequest) (r : Persona) : Persona :=
  if r.id == idv then
    { id := r.id, nombres := q.nombres, apellidos := q.apellidos,
      dni := q.dni, direccion := q.direccion }
  else r

/-- Semantics of `UPDATE persona SET ... WHERE id = ?` (personas_crud,
lines 169–178). -/
def dbUpdateEs (db : DbEs) (idv : Int) (q : PersonaRequest) :
    Except String (DbEs × Nat) :=
  let n := db.rows.countP (fun r => r.id == idv)
  if n == 0 then
    Except.ok (db, 0)
  else if db.rows.any (fun r => r.id != idv && r.dni == q.dni) then
    Except.error (uniqueViolationMsg "persona")
  else
    Except.ok ({ db with rows := db.rows.map (updRowEs idv q) }, n)

/-- Semantics of `DELETE FROM persona WHERE id = ?` (personas_crud,
lines 200–203). -/
def dbDeleteEs (db : DbEs) (idv : Int) : DbEs × Nat :=
  ({ db with rows := db.rows.filter (fun r => r.id != idv) },
   db.rows.countP (fun r => r.id == idv))

/-- Semantics of the Spanish select-by-id with `fetch_optional`. -/
def dbFindEs (db : DbEs) (idv : Int) : Option Persona :=
  db.rows.find? (fun r => r.id == idv)

/-- Handler `crear_persona` (personas_crud, lines 90–114). -/
def crear_persona (db : DbEs) (payload : PersonaRequest)
    (fault : Option String) : DbEs × Response :=
  match fault with
  | some e => (db, (400, errBody e))
  | none =>
    match dbInsertEs db payload with
    | Except.ok (db2, newId) => (db2, (201, idBody newId))
    | Except.error e => (db, (400, errBody e))

/-- Handler `listar_personas` (personas_crud, lines 116–135). -/
def listar_personas (db : DbEs) (fault : Option String) : DbEs × Response :=
  match fault with
  | some e => (db, (500, errBody e))
  | none => (db, (200, Json.jarr (db.rows.map Persona.toJson)))

/-- Handler `obtener_persona` (personas_crud, lines 137–162). -/
def obtener_persona (db : DbEs) (idv : Int) (fault : Option String) :
    DbEs × Response :=
  match fault with
  | some e => (db, (500, errBody e))
  | none =>
    match dbFindEs db idv with
    | some p => (db, (200, p.toJson))
    | none => (db, (404, errBody "Persona no encontrada"))

/-- Handler `actualizar_persona` (personas_crud, lines 164–194). -/
def actualizar_persona (db : DbEs) (idv : Int) (payload : PersonaRequest)
    (fault : Option String) : DbEs × Response :=
  match fault with
  | some e => (db, (400, errBody e))
  | none =>
    match dbUpdateEs db idv payload with
    | Except.ok (db2, n) =>
      if n > 0 then (db2, (200, msgBody "Persona actualizada"))
      else (db2, (404, errBody "Persona no encontrada"))
    | Except.error e => (db, (400, errBody e))

/-- Handler `eliminar_persona` (personas_crud, lines 196–219). -/
def eliminar_persona (db : DbEs) (idv : Int) (fault : Option String) :
    DbEs × Response :=
  match fault with
  | some e => (db, (500, errBody e))
  | none =>
    let (db2, n) := dbDeleteEs db idv
    if n > 0 then (db2, (200, msgBody "Persona eliminada"))
    else (db2, (404, errBody "Persona no encontrada"))

/-- One parsed request of the Spanish variant. -/
inductive ReqEs where
  | create (payload : PersonaRequest)
  | index
  | fetch (idv : Int)
  | update (idv : Int) (payload : PersonaRequest)
  | remove (idv : Int)
deriving DecidableEq, Repr

/-- Dispatch one Spanish request to its handler. -/
def applyReqEs (db : DbEs) (r : ReqEs) (fault : Option String) :
    DbEs × Response :=
  match r with
  | ReqEs.create payload => crear_persona db payload fault
  | ReqEs.index => listar_personas db fault
  | ReqEs.fetch idv => obtener_persona db idv fault
  | ReqEs.update idv payload => actualizar_persona db idv payload fault
  | ReqEs.remove idv => eliminar_persona db idv fault

/-- The field-name renaming listed in the claim:
`nombres`↔`firstName`, `apellidos`↔`lastName`, `direccion`↔`address`. -/
def renameKey : String → String
  | "nombres" => "firstName"
  | "apellidos" => "lastName"
  | "direccion" => "address"
  | k => k

/-- The entity renaming of the claim: `persona`↔`person` applied to the fixed
strings of the Spanish variant that contain the entity word. -/
def renameEntityWord (s : String) : String :=
  if s = "Persona no encontrada" then "Person no encontrada"
  else if s = "Persona actualizada" then "Person actualizada"
  else if s = "Persona eliminada" then "Person eliminada"
  else if s = uniqueViolationMsg "persona" then uniqueViolationMsg "person"
  else s

mutual

/-- The renaming claimed to turn a Spanish response body into the English
one: rename JSON keys per `renameKey` and the entity word inside strings
per `renameEntityWord`, nothing else. -/
def claimRename : Json → Json
  | Json.jint n => Json.jint n
  | Json.jstr s => Json.jstr (renameEntityWord s)
  | Json.jarr l => Json.jarr (claimRenameList l)
  | Json.jobj kvs => Json.jobj (claimRenameKvs kvs)

def claimRenameList : List Json → List Json
  | [] => []
  | j :: rest => claimRename j :: claimRenameList rest

def claimRenameKvs : List (String × Json) → List (String × Json)
  | [] => []
  | (k, v) :: rest => (renameKey k, claimRename v) :: claimRenameKvs rest

end

/-- Spanish-to-English translation of the fixed service strings: the
three human-readable messages and the constraint message. -/
def translateStr (s : String) : String :=
  if s = "Persona no encontrada" then "Person not found"
  else if s = "Persona actualizada" then "Person updated"
  else if s = "Persona eliminada" then "Person deleted"
  else if s = uniqueViolationMsg "persona" then uniqueViolationMsg "person"
  else s

/-- Key renaming applied to one (non-recursive) JSON object. -/
def renameObj : Json → Json
  | Json.jobj kvs => Json.jobj (kvs.map (fun kv => (renameKey kv.1, kv.2)))
  | j => j

/-- Spanish-to-English translation of a response body: translate the fixed
string of a message/error object, rename the keys of Person objects
(element-wise under an array), leave user data untouched. -/
def translateBody : Json → Json
  | Json.jobj (("message", Json.jstr m) :: []) =>
      Json.jobj [("message", Json.jstr (translateStr m))]
  | Json.jobj (("error", Json.jstr e) :: []) =>
      Json.jobj [("error", Json.jstr (translateStr e))]
  | Json.jarr l => Json.jarr (l.map renameObj)
  | j => renameObj j

/-- The field-wise correspondence between the two Person structs. -/
def personaToPerson (p : Persona) : Person :=
  { id := p.id, first_name := p.nombres, last_name := p.apellidos,
    dni := p.dni, address := p.direccion }

/-- The field-wise correspondence between the two request structs. -/
def reqEsToEn (q : PersonaRequest) : PersonRequest :=
  { first_name := q.nombres, last_name := q.apellidos, dni := q.dni,
    address := q.direccion }

/-- The store correspondence between the two variants. -/
def dbEsToEn (db : DbEs) : Db :=
  { rows := db.rows.map personaToPerson, seq := db.seq }

/-- Request correspondence between the two variants. -/
def reqEsTranslate : ReqEs → Req
  | ReqEs.create q => Req.create (reqEsToEn q)
  | ReqEs.index => Req.index
  | ReqEs.fetch idv => Req.fetch idv
  | ReqEs.update idv q => Req.update idv (reqEsToEn q)
  | ReqEs.remove idv => Req.remove idv

/-- The Spanish one-row store corresponding to `db1`. -/
def dbEs1 : DbEs :=
  { rows := [{ id := 1, nombres := "Ana", apellidos := "Diaz",
               dni := "111", direccion := "Calle 1" }],
    seq := 1 }

/-- A Spanish update payload and its English correspondent. -/
def reqEsU : PersonaRequest :=
  { nombres := "Ana", apellidos := "Diaz", dni := "111",
    direccion := "Calle 2" }

/-- Model of the Rust values this program passes to `serde_json::to_value`:
primitives, structs (serde serializes each field under its key), vectors,
and maps (whose keys must serialize to strings, the one failure case of
`to_value`). -/
inductive RustValue where
  | rInt : Int → RustValue
  | rStr : String → RustValue
  | rStruct : String → List (String × RustValue) → RustValue
  | rVec : List RustValue → RustValue
  | rMap : List (RustValue × RustValue) → RustValue

mutual

/-- Model of `serde_json::to_value`: total on primitives, structs and
vectors; fails when a map key does not serialize to a string. -/
def to_value : RustValue → Except String Json
  | RustValue.rInt n => Except.ok (Json.jint n)
  | RustValue.rStr s => Except.ok (Json.jstr s)
  | RustValue.rStruct _ fields =>
    match to_value_fields fields with
    | Except.ok kvs => Except.ok (Json.jobj kvs)
    | Except.error e => Except.error e
  | RustValue.rVec l =>
    match to_value_list l with
    | Except.ok js => Except.ok (Json.jarr js)
    | Except.error e => Except.error e
  | RustValue.rMap entries =>
    match to_value_entries entries with
    | Except.ok kvs => Except.ok (Json.jobj kvs)
    | Except.error e => Except.error e

def to_value_fields :
    List (String × RustValue) → Except String (List (String × Json))
  | [] => Except.ok []
  | (k, v) :: rest =>
    match to_value v with
    | Except.ok j =>
      match to_value_fields rest with
      | Except.ok kvs => Except.ok ((k, j) :: kvs)
      | Except.error e => Except.error e
    | Except.error e => Except.error e

def to_value_list : List RustValue → Except String (List Json)
  | [] => Except.ok []
  | v :: rest =>
    match to_value v with
    | Except.ok j =>
      match to_value_list rest with
      | Except.ok js => Except.ok (j :: js)
      | Except.error e => Except.error e
    | Except.error e => Except.error e

def to_value_entries :
    List (RustValue × RustValue) → Except String (List (String × Json))
  | [] => Except.ok []
  | (k, v) :: rest =>
    match to_value k with
    | Except.ok (Json.jstr ks) =>
      match to_value v with
      | Except.ok j =>
        match to_value_entries rest with
        | Except.ok kvs => Except.ok ((ks, j) :: kvs)
        | Except.error e => Except.error e
      | Except.error e => Except.error e
    | Except.ok _ => Except.error "key must be a string"
    | Except.error e => Except.error e

end

/-- The derived `Serialize` representation of a `Person` value: a struct
whose fields are an i64 and four Strings, keys camelCased. -/
def personValue (p : Person) : RustValue :=
  RustValue.rStruct "Person"
    [("id", RustValue.rInt p.id),
     ("firstName", RustValue.rStr p.first_name),
     ("lastName", RustValue.rStr p.last_name),
     ("dni", RustValue.rStr p.dni),
     ("address", RustValue.rStr p.address)]

/-- The `Serialize` representation of the `Vec<Person>` fetched by the list
handler. -/
def personsValue (ps : List Person) : RustValue :=
  RustValue.rVec (ps.map personValue)

theorem initDb_wf : initDb.wf := by
  refine ⟨le_refl 0, List.nodup_nil, List.nodup_nil, ?_⟩
  intro r hr
  simp [initDb] at hr

theorem crear_seq_le (db : Db) (q : PersonRequest) (f : Option String) :
    db.seq ≤ ((crear_person db q f).1).seq := by
  unfold crear_person dbInsert
  cases f with
  | some e => exact le_refl _
  | none =>
    by_cases h : db.rows.any (fun r => r.dni == q.dni)
    · simp [h]
    · simp [h]

theorem obtener_state_eq (db : Db) (idv : Int) (f : Option String) :
    (obtener_person db idv f).1 = db := by
  unfold obtener_person
  cases f with
  | some e => rfl
  | none => cases h : dbFind db idv <;> simp [h]

theorem listar_state_eq (db : Db) (f : Option String) :
    (listar_persons db f).1 = db := by
  unfold listar_persons
  cases f <;> rfl

theorem actualizar_seq_eq (db : Db) (idv : Int) (q : PersonRequest)
    (f : Option String) :
    ((actualizar_person db idv q f).1).seq = db.seq := by
  unfold actualizar_person dbUpdate
  cases f with
  | some e => rfl
  | none =>
    by_cases h0 : (db.rows.countP (fun r => r.id == idv)) == 0
    · simp [h0]
    · by_cases h1 : db.rows.any (fun r => r.id != idv && r.dni == q.dni)
      · simp [h0, h1]
      · simp [h0, h1]
        split <;> rfl

theorem eliminar_seq_eq (db : Db) (idv : Int) (f : Option String) :
    ((eliminar_person db idv f).1).seq = db.seq := by
  unfold eliminar_person dbDelete
  cases f with
  | some e => rfl
  | none => simp only; split <;> rfl

theorem applyReq_seq_le (db : Db) (r : Req) (f : Option String) :
    db.seq ≤ ((applyReq db r f).1).seq := by
  cases r with
  | create q => exact crear_seq_le db q f
  | index => unfold applyReq; rw [listar_state_eq]
  | fetch idv => unfold applyReq; rw [obtener_state_eq]
  | update idv q => unfold applyReq; rw [actualizar_seq_eq]
  | remove idv => unfold applyReq; rw [eliminar_seq_eq]

theorem any_dni_false_iff (db : Db) (d : String) :
    db.rows.any (fun r => r.dni == d) = false ↔
      ∀ r ∈ db.rows, r.dni ≠ d := by
  simp [List.any_eq_true]

theorem crear_wf (db : Db) (q : PersonRequest) (f : Option String)
    (h : db.wf) : ((crear_person db q f).1).wf := by
  obtain ⟨hseq, hid, hdni, hbounds⟩ := h
  unfold crear_person dbInsert
  cases f with
  | some e => exact ⟨hseq, hid, hdni, hbounds⟩
  | none =>
    by_cases hc : db.rows.any (fun r => r.dni == q.dni)
    · simp only [hc, if_true]
      exact ⟨hseq, hid, hdni, hbounds⟩
    · rw [Bool.not_eq_true] at hc
      simp only [hc, Bool.false_eq_true, if_false]
      refine ⟨by dsimp only; omega, ?_, ?_, ?_⟩
      · rw [List.map_append, List.nodup_append]
        refine ⟨hid, List.nodup_singleton _, ?_⟩
        intro a ha hb
        simp only [List.map_cons, List.map_nil, List.mem_singleton] at hb
        rw [List.mem_map] at ha
        obtain ⟨r, hr, hra⟩ := ha
        have := (hbounds r hr).2
        omega
      · rw [List.map_append, List.nodup_append]
        refine ⟨hdni, List.nodup_singleton _, ?_⟩
        intro a ha hb
        simp only [List.map_cons, List.map_nil, List.mem_singleton] at hb
        rw [List.mem_map] at ha
        obtain ⟨r, hr, hra⟩ := ha
        exact (any_dni_false_iff db q.dni).1 hc r hr (hra.trans hb)
      · intro r hr
        rw [List.mem_append] at hr
        rcases hr with hr | hr
        · have := hbounds r hr
          dsimp only
          constructor <;> omega
        · simp only [List.mem_singleton] at hr
          subst hr
          dsimp only
          constructor <;> omega

theorem eliminar_wf (db : Db) (idv : Int) (f : Option String)
    (h : db.wf) : ((eliminar_person db idv f).1).wf := by
  obtain ⟨hseq, hid, hdni, hbounds⟩ := h
  unfold eliminar_person dbDelete
  have hsub : List.Sublist (db.rows.filter (fun r => r.id != idv)) db.rows :=
    List.filter_sublist _
  have hwf2 : (Db.mk (db.rows.filter (fun r => r.id != idv)) db.seq).wf := by
    refine ⟨hseq, hid.sublist (hsub.map _), hdni.sublist (hsub.map _), ?_⟩
    intro r hr
    exact hbounds r (hsub.subset hr)
  cases f with
  | some e => exact ⟨hseq, hid, hdni, hbounds⟩
  | none =>
    dsimp only
    split <;> exact hwf2

theorem updRow_id (idv : Int) (q : PersonRequest) (r : Person) :
    (updRow idv q r).id = r.id := by
  unfold updRow
  split <;> rfl

theorem actualizar_wf (db : Db) (idv : Int) (q : PersonRequest)
    (f : Option String) (h : db.wf) :
    ((actualizar_person db idv q f).1).wf := by
  obtain ⟨hseq, hid, hdni, hbounds⟩ := h
  unfold actualizar_person dbUpdate
  cases f with
  | some e => exact ⟨hseq, hid, hdni, hbounds⟩
  | none =>
    dsimp only
    by_cases h0 : (db.rows.countP (fun r => r.id == idv)) == 0
    · simp only [h0, if_true]
      exact ⟨hseq, hid, hdni, hbounds⟩
    · rw [Bool.not_eq_true] at h0
      simp only [h0, Bool.false_eq_true, if_false]
      by_cases h1 : db.rows.any (fun r => r.id != idv && r.dni == q.dni)
      · simp only [h1, if_true]
        exact ⟨hseq, hid, hdni, hbounds⟩
      · rw [Bool.not_eq_true] at h1
        simp only [h1, Bool.false_eq_true, if_false]
        have hfresh : ∀ r ∈ db.rows, r.id ≠ idv → r.dni ≠ q.dni := by
          intro r hr hrid
          have := List.any_eq_false.mp h1 r hr
          simp only [Bool.and_eq_true, bne_iff_ne, beq_iff_eq,
            not_and] at this
          exact fun hdq => absurd hdq (this hrid)
        have hmapid : (db.rows.map (updRow idv q)).map Person.id =
            db.rows.map Person.id := by
          rw [List.map_map]
          exact List.map_congr_left (fun a _ => updRow_id idv q a)
        have hid2 : db.rows.Pairwise (fun a b => a.id ≠ b.id) := by
          rw [List.Nodup, List.pairwise_map] at hid
          exact hid
        have hdni2 : db.rows.Pairwise (fun a b => a.dni ≠ b.dni) := by
          rw [List.Nodup, List.pairwise_map] at hdni
          exact hdni
        have hwf2 : (Db.mk (db.rows.map (updRow idv q)) db.seq).wf := by
          refine ⟨hseq, ?_, ?_, ?_⟩
          · show ((db.rows.map (updRow idv q)).map Person.id).Nodup
            rw [hmapid]
            exact hid
          · show ((db.rows.map (updRow idv q)).map Person.dni).Nodup
            rw [List.Nodup, List.pairwise_map, List.pairwise_map]
            refine (hid2.and hdni2).imp_of_mem ?_
            intro a b ha hb hab
            obtain ⟨haid, hadni⟩ := hab
            unfold updRow
            by_cases h2 : a.id == idv <;> by_cases h3 : b.id == idv
            · rw [beq_iff_eq] at h2 h3
              exact absurd (h2.trans h3.symm) haid
            · simp only [h2, h3, if_true, Bool.false_eq_true, if_false]
              exact fun hc =>
                hfresh b hb (by simpa using h3) (by simpa using hc.symm)
            · simp only [h2, h3, if_true, Bool.false_eq_true, if_false]
              exact fun hc =>
                hfresh a ha (by simpa using h2) (by simpa using hc)
            · simp only [h2, h3, Bool.false_eq_true, if_false]
              exact hadni
          · intro r hr
            rw [List.mem_map] at hr
            obtain ⟨a, ha, hra⟩ := hr
            rw [← hra, updRow_id]
            exact hbounds a ha
        split
        · exact hwf2
        · exact hwf2

theorem applyReq_wf (db : Db) (r : Req) (f : Option String) (h : db.wf) :
    ((applyReq db r f).1).wf := by
  cases r with
  | create q => exact crear_wf db q f h
  | index => unfold applyReq; rw [listar_state_eq]; exact h
  | fetch idv => unfold applyReq; rw [obtener_state_eq]; exact h
  | update idv q => exact actualizar_wf db idv q f h
  | remove idv => exact eliminar_wf db idv f h

theorem respAssigned_err (st : Nat) (e : String) :
    respAssigned (st, errBody e) = [] := rfl

theorem respAssigned_msg (st : Nat) (m : String) :
    respAssigned (st, msgBody m) = [] := rfl

theorem respAssigned_arr (st : Nat) (l : List Json) :
    respAssigned (st, Json.jarr l) = [] := rfl

theorem respAssigned_person (st : Nat) (p : Person) :
    respAssigned (st, p.toJson) = [] := rfl

theorem respAssigned_id (st : Nat) (n : Int) :
    respAssigned (st, idBody n) = if st == 201 then [n] else [] := rfl

theorem dbInsert_ok (db : Db) (q : PersonRequest) (v : Db × Int)
    (h : dbInsert db q = Except.ok v) :
    v.1 = { rows := db.rows ++
              [{ id := db.seq + 1, first_name := q.first_name,
                 last_name := q.last_name, dni := q.dni,
                 address := q.address }],
            seq := db.seq + 1 } ∧
    v.2 = db.seq + 1 ∧
    db.rows.any (fun r => r.dni == q.dni) = false := by
  unfold dbInsert at h
  split at h
  · cases h
  · next hc =>
      cases h
      exact ⟨rfl, rfl, by rwa [Bool.not_eq_true] at hc⟩

theorem dbInsert_error (db : Db) (q : PersonRequest) (e : String)
    (h : dbInsert db q = Except.error e) :
    e = uniqueViolationMsg "person" ∧
    db.rows.any (fun r => r.dni == q.dni) = true := by
  unfold dbInsert at h
  split at h
  · next hc => cases h; exact ⟨rfl, hc⟩
  · cases h

theorem applyReq_assigned (db : Db) (r : Req) (f : Option String) :
    ∀ i ∈ respAssigned (applyReq db r f).2,
      i = ((applyReq db r f).1).seq ∧ db.seq < i := by
  intro i hi
  cases r with
  | create q =>
    unfold applyReq crear_person at hi ⊢
    cases f with
    | some e => rw [respAssigned_err] at hi; cases hi
    | none =>
      cases hc : dbInsert db q with
      | error e =>
        simp only [hc] at hi
        rw [respAssigned_err] at hi
        cases hi
      | ok v =>
        obtain ⟨hv1, hv2, _⟩ := dbInsert_ok db q v hc
        simp only [hc] at hi ⊢
        rw [respAssigned_id] at hi
        simp at hi
        subst hi
        rw [hv1, hv2]
        exact ⟨rfl, by omega⟩
  | index =>
    unfold applyReq listar_persons at hi
    cases f with
    | some e => rw [respAssigned_err] at hi; cases hi
    | none => rw [respAssigned_arr] at hi; cases hi
  | fetch idv =>
    unfold applyReq obtener_person at hi
    cases f with
    | some e => rw [respAssigned_err] at hi; cases hi
    | none =>
      cases hf : dbFind db idv with
      | some p => simp only [hf] at hi; rw [respAssigned_person] at hi; cases hi
      | none => simp only [hf] at hi; rw [respAssigned_err] at hi; cases hi
  | update idv q =>
    unfold applyReq actualizar_person at hi
    cases f with
    | some e => rw [respAssigned_err] at hi; cases hi
    | none =>
      cases hu : dbUpdate db idv q with
      | ok v =>
        simp only [hu] at hi
        by_cases hn : v.2 > 0
        · simp only [hn, if_true] at hi
          rw [respAssigned_msg] at hi
          cases hi
        · simp only [hn, if_false] at hi
          rw [respAssigned_err] at hi
          cases hi
      | error e =>
        simp only [hu] at hi
        rw [respAssigned_err] at hi
        cases hi
  | remove idv =>
    unfold applyReq eliminar_person at hi
    cases f with
    | some e => rw [respAssigned_err] at hi; cases hi
    | none =>
      dsimp only at hi
      by_cases hn : (dbDelete db idv).2 > 0
      · simp only [hn, if_true] at hi
        rw [respAssigned_msg] at hi
        cases hi
      · simp only [hn, if_false] at hi
        rw [respAssigned_err] at hi
        cases hi

theorem runAcc_cons (db : Db) (r : Req) (f : Option String)
    (rest : List (Req × Option String)) :
    runAcc db ((r, f) :: rest) =
      ((runAcc (applyReq db r f).1 rest).1,
       respAssigned (applyReq db r f).2 ++
         (runAcc (applyReq db r f).1 rest).2) := rfl

theorem runAcc_wf (t : List (Req × Option String)) :
    ∀ db : Db, db.wf → ((runAcc db t).1).wf := by
  induction t with
  | nil => intro db h; exact h
  | cons p rest ih =>
    intro db h
    obtain ⟨r, f⟩ := p
    rw [runAcc_cons]
    exact ih _ (applyReq_wf db r f h)

theorem runAcc_seq_le (t : List (Req × Option String)) :
    ∀ db : Db, db.seq ≤ ((runAcc db t).1).seq := by
  induction t with
  | nil => intro db; exact le_refl _
  | cons p rest ih =>
    intro db
    obtain ⟨r, f⟩ := p
    rw [runAcc_cons]
    exact le_trans (applyReq_seq_le db r f) (ih _)

theorem runAcc_assigned (t : List (Req × Option String)) :
    ∀ db : Db, ∀ i ∈ (runAcc db t).2, i ≤ ((runAcc db t).1).seq := by
  induction t with
  | nil => intro db i hi; cases hi
  | cons p rest ih =>
    intro db i hi
    obtain ⟨r, f⟩ := p
    rw [runAcc_cons] at hi ⊢
    dsimp only at hi ⊢
    rw [List.mem_append] at hi
    rcases hi with hi | hi
    · obtain ⟨hie, _⟩ := applyReq_assigned db r f i hi
      rw [hie]
      exact runAcc_seq_le rest _
    · exact ih _ i hi

theorem reachable_wf (db : Db) (h : Reachable db) : db.wf := by
  obtain ⟨t, ht⟩ := h
  rw [← ht]
  exact runAcc_wf t initDb initDb_wf

theorem db1_reachable : Reachable db1 :=
  ⟨[(Req.create req1, none)], rfl⟩

/-- C1: in every reachable store state no two rows share a dni, and an
insert whose dni matches a live row, or an update whose dni matches a live
row other than the (existing) target row, returns the 400 error branch and
leaves the store unchanged — under any storage fault as well. -/
theorem dni_unique_invariant (db : Db) (h : Reachable db) :
    (db.rows.map Person.dni).Nodup ∧
    (∀ (q : PersonRequest) (f : Option String),
      (∃ r ∈ db.rows, r.dni = q.dni) →
      (crear_person db q f).1 = db ∧
      ∃ m, (crear_person db q f).2 = (400, errBody m)) ∧
    (∀ (idv : Int) (q : PersonRequest) (f : Option String),
      (∃ r ∈ db.rows, r.id = idv) →
      (∃ r ∈ db.rows, r.id ≠ idv ∧ r.dni = q.dni) →
      (actualizar_person db idv q f).1 = db ∧
      ∃ m, (actualizar_person db idv q f).2 = (400, errBody m)) := by
  refine ⟨(reachable_wf db h).2.2.1, ?_, ?_⟩
  · intro q f hcol
    obtain ⟨r, hr, hrd⟩ := hcol
    have hany : db.rows.any (fun r => r.dni == q.dni) = true := by
      rw [List.any_eq_true]
      exact ⟨r, hr, by rwa [beq_iff_eq]⟩
    unfold crear_person dbInsert
    cases f with
    | some e => exact ⟨rfl, e, rfl⟩
    | none =>
      simp only [hany, if_true]
      exact ⟨by trivial, uniqueViolationMsg "person", by trivial⟩
  · intro idv q f hex hcol
    obtain ⟨r2, hr2, hr2id⟩ := hex
    obtain ⟨r, hr, hrid, hrd⟩ := hcol
    have hcount : db.rows.countP (fun r => r.id == idv) ≠ 0 := by
      have : 0 < db.rows.countP (fun r => r.id == idv) :=
        List.countP_pos_iff.mpr ⟨r2, hr2, by rwa [beq_iff_eq]⟩
      omega
    have hany : db.rows.any (fun r => r.id != idv && r.dni == q.dni) = true := by
      rw [List.any_eq_true]
      refine ⟨r, hr, ?_⟩
      rw [Bool.and_eq_true, bne_iff_ne, beq_iff_eq]
      exact ⟨hrid, hrd⟩
    unfold actualizar_person dbUpdate
    cases f with
    | some e => exact ⟨rfl, e, rfl⟩
    | none =>
      have hc0 : (db.rows.countP (fun r => r.id == idv) == 0) = false := by
        rw [beq_eq_false_iff_ne]
        exact hcount
      simp only [hc0, Bool.false_eq_true, if_false, hany, if_true]
      exact ⟨by trivial, uniqueViolationMsg "person", by trivial⟩

/-- Witness for C1: `db1` is reachable, its dni column is duplicate-free,
and a second create with dni "111" is rejected without mutation. -/
theorem dni_unique_invariant_app :
    (db1.rows.map Person.dni).Nodup ∧
    (crear_person db1
        { first_name := "Eva", last_name := "Gil", dni := "111",
          address := "Calle 9" } none).1 = db1 ∧
    ∃ m, (crear_person db1
        { first_name := "Eva", last_name := "Gil", dni := "111",
          address := "Calle 9" } none).2 = (400, errBody m) := by
  have h := dni_unique_invariant db1 db1_reachable
  have hc := h.2.1
    { first_name := "Eva", last_name := "Gil", dni := "111",
      address := "Calle 9" } none
    ⟨{ id := 1, first_name := "Ana", last_name := "Diaz", dni := "111",
       address := "Calle 1" }, by simp [db1], rfl⟩
  exact ⟨h.1, hc.1, hc.2⟩

/-- C2: after any request history, a create whose dni is fresh returns 201
with id `seq + 1`, strictly greater than every id ever handed out by a
successful create in the history and different from the id of every live
row (ids of deleted rows were handed out too, so none equals it). -/
theorem crear_fresh_new_id (t : List (Req × Option String)) (db : Db)
    (ids : List Int) (hrun : runAcc initDb t = (db, ids))
    (q : PersonRequest) (hfresh : ∀ r ∈ db.rows, r.dni ≠ q.dni) :
    ∃ db2 : Db,
      crear_person db q none = (db2, (201, idBody (db.seq + 1))) ∧
      (∀ i ∈ ids, i < db.seq + 1) ∧
      (∀ r ∈ db.rows, r.id ≠ db.seq + 1) := by
  have hdb : (runAcc initDb t).1 = db := by rw [hrun]
  have hids : (runAcc initDb t).2 = ids := by rw [hrun]
  have hwf : db.wf := by rw [← hdb]; exact runAcc_wf t initDb initDb_wf
  have hany : db.rows.any (fun r => r.dni == q.dni) = false := by
    rw [List.any_eq_false]
    intro r hr
    rw [Bool.not_eq_true, beq_eq_false_iff_ne]
    exact hfresh r hr
  have hins : dbInsert db q = Except.ok
      ({ rows := db.rows ++
           [{ id := db.seq + 1, first_name := q.first_name,
              last_name := q.last_name, dni := q.dni,
              address := q.address }],
         seq := db.seq + 1 }, db.seq + 1) := by
    unfold dbInsert
    rw [hany]
    rfl
  refine ⟨{ rows := db.rows ++
              [{ id := db.seq + 1, first_name := q.first_name,
                 last_name := q.last_name, dni := q.dni,
                 address := q.address }],
            seq := db.seq + 1 }, ?_, ?_, ?_⟩
  · unfold crear_person
    rw [hins]
  · intro i hi
    have := runAcc_assigned t initDb i (by rwa [hids])
    rw [hdb] at this
    omega
  · intro r hr
    have := (hwf.2.2.2 r hr).2
    omega

/-- Witness for C2: creating "111" from the empty store assigns id 1; a
subsequent create with fresh dni "222" returns 201 with id 2, greater than
the previously assigned id 1 and unused by the live row. -/
theorem crear_fresh_new_id_app :
    ∃ db2 : Db,
      crear_person db1
          { first_name := "Eva", last_name := "Gil", dni := "222",
            address := "Calle 9" } none =
        (db2, (201, idBody (db1.seq + 1))) ∧
      (∀ i ∈ [(1 : Int)], i < db1.seq + 1) ∧
      (∀ r ∈ db1.rows, r.id ≠ db1.seq + 1) := by
  exact crear_fresh_new_id [(Req.create req1, none)] db1 [1] rfl
    { first_name := "Eva", last_name := "Gil", dni := "222",
      address := "Calle 9" }
    (by intro r hr; simp [db1] at hr; rw [hr]; decide)

/-- C3: `obtener_person` never mutates the store and its result is exactly
one of three outcomes: 500 with the fault message on a storage fault, 200
with the serialized row when a row matches the id, or 404 with
`{"error": "Person not found"}` when no row matches. -/
theorem obtener_person_cases (db : Db) (idv : Int) (fault : Option String) :
    (obtener_person db idv fault).1 = db ∧
    ((∃ e, fault = some e ∧
        (obtener_person db idv fault).2 = (500, errBody e)) ∨
     (fault = none ∧ ∃ p ∈ db.rows, p.id = idv ∧
        (obtener_person db idv fault).2 = (200, p.toJson)) ∨
     (fault = none ∧ (∀ p ∈ db.rows, p.id ≠ idv) ∧
        (obtener_person db idv fault).2 =
          (404, errBody "Person not found"))) := by
  refine ⟨obtener_state_eq db idv fault, ?_⟩
  cases fault with
  | some e => exact Or.inl ⟨e, rfl, rfl⟩
  | none =>
    cases hf : dbFind db idv with
    | some p =>
      refine Or.inr (Or.inl ⟨rfl, p, ?_, ?_, ?_⟩)
      · exact List.mem_of_find?_eq_some hf
      · have := List.find?_some hf
        rwa [beq_iff_eq] at this
      · unfold obtener_person
        rw [hf]
    | none =>
      refine Or.inr (Or.inr ⟨rfl, ?_, ?_⟩)
      · intro p hp
        have := List.find?_eq_none.mp hf p hp
        rwa [Bool.not_eq_true, beq_eq_false_iff_ne] at this
      · unfold obtener_person
        rw [hf]

/-- C4: an update whose id matches a row and whose dni collides with no
other row succeeds with `{"message": "Person updated"}`, replaces all four
fields of the matching row (other rows untouched), and a subsequent get on
the same id returns exactly the new values under the unchanged id. -/
theorem actualizar_then_obtener (db : Db) (idv : Int) (q : PersonRequest)
    (hex : ∃ r ∈ db.rows, r.id = idv)
    (hnc : ∀ r ∈ db.rows, r.id ≠ idv → r.dni ≠ q.dni) :
    ∃ db2 : Db,
      actualizar_person db idv q none =
        (db2, (200, msgBody "Person updated")) ∧
      db2.rows = db.rows.map (updRow idv q) ∧
      obtener_person db2 idv none =
        (db2, (200, Person.toJson
          { id := idv, first_name := q.first_name,
            last_name := q.last_name, dni := q.dni,
            address := q.address })) := by
  obtain ⟨r0, hr0, hr0id⟩ := hex
  have hcount : 0 < db.rows.countP (fun r => r.id == idv) :=
    List.countP_pos_iff.mpr ⟨r0, hr0, by rwa [beq_iff_eq]⟩
  have hc0 : (db.rows.countP (fun r => r.id == idv) == 0) = false := by
    rw [beq_eq_false_iff_ne]
    omega
  have hany : db.rows.any (fun r => r.id != idv && r.dni == q.dni) = false := by
    rw [List.any_eq_false]
    intro r hr
    rw [Bool.not_eq_true, Bool.and_eq_false_iff]
    by_cases hid : r.id = idv
    · exact Or.inl (by simp [hid])
    · exact Or.inr (by rw [beq_eq_false_iff_ne]; exact hnc r hr hid)
  have hupd : dbUpdate db idv q = Except.ok
      ({ db with rows := db.rows.map (updRow idv q) },
       db.rows.countP (fun r => r.id == idv)) := by
    unfold dbUpdate updRow
    simp only [hc0, Bool.false_eq_true, if_false, hany]
  refine ⟨{ db with rows := db.rows.map (updRow idv q) }, ?_, rfl, ?_⟩
  · unfold actualizar_person
    rw [hupd]
    simp only [hcount, if_true]
  · unfold obtener_person dbFind
    have hfind : (db.rows.map (updRow idv q)).find?
        (fun r => r.id == idv) = some
          { id := idv, first_name := q.first_name,
            last_name := q.last_name, dni := q.dni,
            address := q.address } := by
      rw [List.find?_map]
      have hcomp : ((fun r : Person => r.id == idv) ∘ updRow idv q) =
          (fun r : Person => r.id == idv) := by
        funext r
        simp [Function.comp, updRow_id]
      rw [hcomp]
      have : ∃ r, db.rows.find? (fun r => r.id == idv) = some r := by
        rw [← Option.isSome_iff_exists]
        rw [List.find?_isSome]
        exact ⟨r0, hr0, by rwa [beq_iff_eq]⟩
      obtain ⟨r, hre⟩ := this
      have hrid : r.id = idv := by
        have := List.find?_some hre
        rwa [beq_iff_eq] at this
      rw [hre]
      unfold updRow
      simp [hrid]
    rw [hfind]

/-- C5: an update whose id matches no row returns 404 with
`{"error": "Person not found"}` and returns the store unchanged. -/
theorem actualizar_missing_id (db : Db) (idv : Int) (q : PersonRequest)
    (hx : ∀ r ∈ db.rows, r.id ≠ idv) :
    actualizar_person db idv q none =
      (db, (404, errBody "Person not found")) := by
  have hcount : db.rows.countP (fun r => r.id == idv) = 0 := by
    rw [List.countP_eq_zero]
    intro r hr
    rw [Bool.not_eq_true, beq_eq_false_iff_ne]
    exact hx r hr
  unfold actualizar_person dbUpdate
  simp only [hcount]
  rfl

/-- Witness for C4: updating row 1 of `db1` with fresh field values
succeeds and a get on id 1 returns exactly the new values. -/
theorem actualizar_then_obtener_app :
    ∃ db2 : Db,
      actualizar_person db1 1
          { first_name := "Eva", last_name := "Gil", dni := "222",
            address := "Calle 9" } none =
        (db2, (200, msgBody "Person updated")) ∧
      db2.rows = db1.rows.map (updRow 1
        { first_name := "Eva", last_name := "Gil", dni := "222",
          address := "Calle 9" }) ∧
      obtener_person db2 1 none =
        (db2, (200, Person.toJson
          { id := 1, first_name := "Eva", last_name := "Gil",
            dni := "222", address := "Calle 9" })) := by
  exact actualizar_then_obtener db1 1
    { first_name := "Eva", last_name := "Gil", dni := "222",
      address := "Calle 9" }
    ⟨{ id := 1, first_name := "Ana", last_name := "Diaz", dni := "111",
       address := "Calle 1" }, by simp [db1], rfl⟩
    (by intro r hr hne; simp [db1] at hr; rw [hr] at hne; simp at hne)

/-- Witness for C5: updating the absent id 2 of `db1` returns 404 and the
unchanged store. -/
theorem actualizar_missing_id_app :
    actualizar_person db1 2
        { first_name := "Eva", last_name := "Gil", dni := "222",
          address := "Calle 9" } none =
      (db1, (404, errBody "Person not found")) := by
  exact actualizar_missing_id db1 2
    { first_name := "Eva", last_name := "Gil", dni := "222",
      address := "Calle 9" }
    (by intro r hr; simp [db1] at hr; rw [hr]; decide)

/-- C6: deleting an existing id returns 200 `{"message": "Person deleted"}`
and removes exactly the rows with that id; afterwards a get on that id
returns 404, and a second delete returns 404 with the store unchanged. -/
theorem eliminar_then_obtener (db : Db) (idv : Int)
    (hex : ∃ r ∈ db.rows, r.id = idv) :
    ∃ db2 : Db,
      eliminar_person db idv none =
        (db2, (200, msgBody "Person deleted")) ∧
      (∀ r : Person, r ∈ db2.rows ↔ r ∈ db.rows ∧ r.id ≠ idv) ∧
      db2.seq = db.seq ∧
      (obtener_person db2 idv none).2 =
        (404, errBody "Person not found") ∧
      eliminar_person db2 idv none =
        (db2, (404, errBody "Person not found")) := by
  obtain ⟨r0, hr0, hr0id⟩ := hex
  have hcount : 0 < db.rows.countP (fun r => r.id == idv) :=
    List.countP_pos_iff.mpr ⟨r0, hr0, by rwa [beq_iff_eq]⟩
  refine ⟨{ db with rows := db.rows.filter (fun r => r.id != idv) },
    ?_, ?_, rfl, ?_, ?_⟩
  · unfold eliminar_person dbDelete
    simp only [hcount, if_true]
  · intro r
    rw [List.mem_filter, bne_iff_ne]
  · unfold obtener_person dbFind
    have hnone : (db.rows.filter (fun r => r.id != idv)).find?
        (fun r => r.id == idv) = none := by
      rw [List.find?_eq_none]
      intro r hr
      have := (List.mem_filter.mp hr).2
      rw [bne_iff_ne] at this
      rw [Bool.not_eq_true, beq_eq_false_iff_ne]
      exact this
    rw [hnone]
  · have hz : (db.rows.filter (fun r => r.id != idv)).countP
        (fun r => r.id == idv) = 0 := by
      rw [List.countP_eq_zero]
      intro r hr
      have := (List.mem_filter.mp hr).2
      rw [bne_iff_ne] at this
      rw [Bool.not_eq_true, beq_eq_false_iff_ne]
      exact this
    have hfix : (db.rows.filter (fun r => r.id != idv)).filter
        (fun r => r.id != idv) = db.rows.filter (fun r => r.id != idv) :=
      List.filter_eq_self.mpr (fun a ha => (List.mem_filter.mp ha).2)
    unfold eliminar_person dbDelete
    simp only [hz, hfix]
    rfl

/-- Witness for C6: deleting id 1 from `db1` succeeds; the row is gone, a
get returns 404, and a second delete returns 404 without mutation. -/
theorem eliminar_then_obtener_app :
    ∃ db2 : Db,
      eliminar_person db1 1 none =
        (db2, (200, msgBody "Person deleted")) ∧
      (∀ r : Person, r ∈ db2.rows ↔ r ∈ db1.rows ∧ r.id ≠ 1) ∧
      db2.seq = db1.seq ∧
      (obtener_person db2 1 none).2 =
        (404, errBody "Person not found") ∧
      eliminar_person db2 1 none =
        (db2, (404, errBody "Person not found")) := by
  exact eliminar_then_obtener db1 1
    ⟨{ id := 1, first_name := "Ana", last_name := "Diaz", dni := "111",
       address := "Calle 1" }, by simp [db1], rfl⟩

/-- C7: listing never mutates and returns 200 with exactly the serialized
live rows; in particular creating A, B, C from the empty store (distinct
dni values) and then deleting the id of B leaves a list result that holds
exactly the serializations of A (id 1) and C (id 3). -/
theorem listar_exact_rows (db : Db) (qA qB qC : PersonRequest)
    (hAB : qA.dni ≠ qB.dni) (hAC : qA.dni ≠ qC.dni) (hBC : qB.dni ≠ qC.dni) :
    listar_persons db none =
      (db, (200, Json.jarr (db.rows.map Person.toJson))) ∧
    (∃ l : List Json,
      listar_persons
        ((eliminar_person
          ((crear_person
            ((crear_person
              ((crear_person initDb qA none).1) qB none).1) qC none).1)
          2 none).1) none =
        (((eliminar_person
          ((crear_person
            ((crear_person
              ((crear_person initDb qA none).1) qB none).1) qC none).1)
          2 none).1), (200, Json.jarr l)) ∧
      ∀ j : Json, j ∈ l ↔
        (j = Person.toJson (mkRow 1 qA) ∨ j = Person.toJson (mkRow 3 qC))) := by
  have hB : (qA.dni == qB.dni) = false := beq_eq_false_iff_ne.mpr hAB
  have hCa : (qA.dni == qC.dni) = false := beq_eq_false_iff_ne.mpr hAC
  have hCb : (qB.dni == qC.dni) = false := beq_eq_false_iff_ne.mpr hBC
  have e1 : (crear_person initDb qA none).1 =
      { rows := [mkRow 1 qA], seq := 1 } := rfl
  constructor
  · rfl
  · rw [e1]
    have e2 : (crear_person { rows := [mkRow 1 qA], seq := 1 } qB none).1 =
        { rows := [mkRow 1 qA, mkRow 2 qB], seq := 2 } := by
      unfold crear_person dbInsert mkRow
      simp only [List.any_cons, List.any_nil, Bool.or_false, hB,
        Bool.false_eq_true, if_false]
      norm_num
    rw [e2]
    have e3 : (crear_person
        { rows := [mkRow 1 qA, mkRow 2 qB], seq := 2 } qC none).1 =
        { rows := [mkRow 1 qA, mkRow 2 qB, mkRow 3 qC], seq := 3 } := by
      unfold crear_person dbInsert mkRow
      simp only [List.any_cons, List.any_nil, Bool.or_false, hCa, hCb,
        Bool.or_self, Bool.false_eq_true, if_false]
      norm_num
    rw [e3]
    have e4 : (eliminar_person
        { rows := [mkRow 1 qA, mkRow 2 qB, mkRow 3 qC], seq := 3 } 2 none).1 =
        { rows := [mkRow 1 qA, mkRow 3 qC], seq := 3 } := rfl
    rw [e4]
    refine ⟨_, rfl, ?_⟩
    intro j
    simp only [List.map_cons, List.map_nil, List.mem_cons,
      List.not_mem_nil, or_false]

/-- Witness for C7: the A/B/C-then-delete-B listing at concrete requests. -/
theorem listar_exact_rows_app :
    listar_persons db1 none =
      (db1, (200, Json.jarr (db1.rows.map Person.toJson))) ∧
    (∃ l : List Json,
      listar_persons
        ((eliminar_person
          ((crear_person
            ((crear_person
              ((crear_person initDb req1 none).1) req2 none).1) req3 none).1)
          2 none).1) none =
        (((eliminar_person
          ((crear_person
            ((crear_person
              ((crear_person initDb req1 none).1) req2 none).1) req3 none).1)
          2 none).1), (200, Json.jarr l)) ∧
      ∀ j : Json, j ∈ l ↔
        (j = Person.toJson (mkRow 1 req1) ∨
         j = Person.toJson (mkRow 3 req3))) :=
  listar_exact_rows db1 req1 req2 req3 (by decide) (by decide) (by decide)

/-- C8: every Person body produced by the get-by-id and list handlers has
exactly the keys id (integer), firstName, lastName, dni, address
(strings). -/
theorem respuestas_person_shape (db : Db) (idv : Int) (b : Json)
    (l : List Json) :
    ((obtener_person db idv none).2 = (200, b) → personShape b) ∧
    ((listar_persons db none).2 = (200, Json.jarr l) →
      ∀ j ∈ l, personShape j) := by
  constructor
  · intro hb
    unfold obtener_person at hb
    cases hf : dbFind db idv with
    | some p =>
      rw [hf] at hb
      dsimp only at hb
      have : p.toJson = b := congrArg Prod.snd hb
      rw [← this]
      exact ⟨p.id, p.first_name, p.last_name, p.dni, p.address, rfl⟩
    | none =>
      rw [hf] at hb
      dsimp only at hb
      have : errBody "Person not found" = b := congrArg Prod.snd hb
      have hst : (404 : Nat) = 200 := congrArg Prod.fst hb
      cases hst
  · intro hl j hj
    unfold listar_persons at hl
    dsimp only at hl
    have harr : Json.jarr (db.rows.map Person.toJson) = Json.jarr l :=
      congrArg Prod.snd hl
    have : db.rows.map Person.toJson = l := by
      cases harr
      rfl
    rw [← this] at hj
    rw [List.mem_map] at hj
    obtain ⟨p, _, hp⟩ := hj
    rw [← hp]
    exact ⟨p.id, p.first_name, p.last_name, p.dni, p.address, rfl⟩

/-- Witness for C8: the get and list bodies over `db1` have the Person
shape. -/
theorem respuestas_person_shape_app :
    personShape (Person.toJson (mkRow 1 req1)) ∧
    ∀ j ∈ [Person.toJson (mkRow 1 req1)], personShape j := by
  have h := respuestas_person_shape db1 1 (Person.toJson (mkRow 1 req1))
    [Person.toJson (mkRow 1 req1)]
  exact ⟨h.1 rfl, h.2 rfl⟩

/-- Counterexample to C9 as stated: updating the existing id 1 in the two
corresponding stores with corresponding payloads yields equal statuses but
bodies that differ after applying the claimed entity/field-name renaming
(`{"message": "Persona actualizada"}` renames to
`{"message": "Person actualizada"}`, not `{"message": "Person updated"}`). -/
theorem variant_rename_claim_refuted :
    (actualizar_persona dbEs1 1 reqEsU none).2.1 =
      (actualizar_person db1 1 (reqEsToEn reqEsU) none).2.1 ∧
    claimRename (actualizar_persona dbEs1 1 reqEsU none).2.2 ≠
      (actualizar_person db1 1 (reqEsToEn reqEsU) none).2.2 := by
  constructor
  · rfl
  · decide

theorem any_map_comp {α β : Type} (f : α → β) (l : List α) (p : β → Bool) :
    (l.map f).any p = l.any (p ∘ f) := by
  induction l with
  | nil => rfl
  | cons x xs ih => simp only [List.map_cons, List.any_cons, ih]; rfl

theorem translateBody_err (e : String) :
    translateBody (errBody e) = errBody (translateStr e) := rfl

theorem translateBody_msg (m : String) :
    translateBody (msgBody m) = msgBody (translateStr m) := rfl

theorem translateBody_id (n : Int) :
    translateBody (idBody n) = idBody n := rfl

theorem renameObj_persona (p : Persona) :
    renameObj (Persona.toJson p) = Person.toJson (personaToPerson p) := rfl

theorem translateBody_arr (l : List Json) :
    translateBody (Json.jarr l) = Json.jarr (l.map renameObj) := rfl

theorem translateBody_persona (p : Persona) :
    translateBody (Persona.toJson p) =
      Person.toJson (personaToPerson p) := rfl

theorem translateStr_notfound :
    translateStr "Persona no encontrada" = "Person not found" := by decide

theorem translateStr_updated :
    translateStr "Persona actualizada" = "Person updated" := by decide

theorem translateStr_deleted :
    translateStr "Persona eliminada" = "Person deleted" := by decide

theorem translateStr_unique :
    translateStr (uniqueViolationMsg "persona") =
      uniqueViolationMsg "person" := by decide

theorem any_dni_commute (db : DbEs) (q : PersonaRequest) :
    (dbEsToEn db).rows.any (fun r => r.dni == (reqEsToEn q).dni) =
      db.rows.any (fun r => r.dni == q.dni) := by
  unfold dbEsToEn
  dsimp only
  rw [any_map_comp]
  rfl

theorem countP_id_commute (db : DbEs) (idv : Int) :
    (dbEsToEn db).rows.countP (fun r => r.id == idv) =
      db.rows.countP (fun r => r.id == idv) := by
  unfold dbEsToEn
  dsimp only
  rw [List.countP_map]
  rfl

theorem any_coll_commute (db : DbEs) (idv : Int) (q : PersonaRequest) :
    (dbEsToEn db).rows.any
        (fun r => r.id != idv && r.dni == (reqEsToEn q).dni) =
      db.rows.any (fun r => r.id != idv && r.dni == q.dni) := by
  unfold dbEsToEn
  dsimp only
  rw [any_map_comp]
  rfl

theorem updRow_commute (idv : Int) (q : PersonaRequest) (r : Persona) :
    updRow idv (reqEsToEn q) (personaToPerson r) =
      personaToPerson (updRowEs idv q r) := by
  unfold updRow updRowEs personaToPerson
  by_cases h : r.id == idv
  · simp only [h, if_true]
    rfl
  · rw [Bool.not_eq_true] at h
    simp only [h, Bool.false_eq_true, if_false]

theorem crear_commute (db : DbEs) (q : PersonaRequest) (f : Option String) :
    crear_person (dbEsToEn db) (reqEsToEn q) (f.map translateStr) =
      (dbEsToEn (crear_persona db q f).1,
       ((crear_persona db q f).2.1,
        translateBody (crear_persona db q f).2.2)) := by
  cases f with
  | some e =>
    unfold crear_person crear_persona
    dsimp only [Option.map]
    rw [translateBody_err]
  | none =>
    unfold crear_person crear_persona dbInsert dbInsertEs
    dsimp only [Option.map]
    rw [any_dni_commute]
    by_cases hc : db.rows.any (fun r => r.dni == q.dni)
    · simp only [hc, if_true]
      rw [translateBody_err, translateStr_unique]
    · rw [Bool.not_eq_true] at hc
      simp only [hc, Bool.false_eq_true, if_false]
      rw [translateBody_id]
      unfold dbEsToEn mkRowEs reqEsToEn personaToPerson
      simp only [List.map_append, List.map_cons, List.map_nil]

theorem listar_commute (db : DbEs) (f : Option String) :
    listar_persons (dbEsToEn db) (f.map translateStr) =
      (dbEsToEn (listar_personas db f).1,
       ((listar_personas db f).2.1,
        translateBody (listar_personas db f).2.2)) := by
  cases f with
  | some e =>
    unfold listar_persons listar_personas
    dsimp only [Option.map]
    rw [translateBody_err]
  | none =>
    unfold listar_persons listar_personas
    dsimp only [Option.map]
    rw [translateBody_arr]
    unfold dbEsToEn
    dsimp only
    rw [List.map_map, List.map_map]
    rfl

theorem obtener_commute (db : DbEs) (idv : Int) (f : Option String) :
    obtener_person (dbEsToEn db) idv (f.map translateStr) =
      (dbEsToEn (obtener_persona db idv f).1,
       ((obtener_persona db idv f).2.1,
        translateBody (obtener_persona db idv f).2.2)) := by
  cases f with
  | some e =>
    unfold obtener_person obtener_persona
    dsimp only [Option.map]
    rw [translateBody_err]
  | none =>
    unfold obtener_person obtener_persona dbFind dbFindEs
    dsimp only [Option.map]
    have hf : (dbEsToEn db).rows.find? (fun r => r.id == idv) =
        Option.map personaToPerson
          (db.rows.find? (fun r => r.id == idv)) := by
      unfold dbEsToEn
      dsimp only
      rw [List.find?_map]
      rfl
    rw [hf]
    cases hq : db.rows.find? (fun r => r.id == idv) with
    | some p =>
      dsimp only [Option.map]
      rw [translateBody_persona]
    | none =>
      dsimp only [Option.map]
      rw [translateBody_err, translateStr_notfound]

theorem eliminar_commute (db : DbEs) (idv : Int) (f : Option String) :
    eliminar_person (dbEsToEn db) idv (f.map translateStr) =
      (dbEsToEn (eliminar_persona db idv f).1,
       ((eliminar_persona db idv f).2.1,
        translateBody (eliminar_persona db idv f).2.2)) := by
  cases f with
  | some e =>
    unfold eliminar_person eliminar_persona
    dsimp only [Option.map]
    rw [translateBody_err]
  | none =>
    unfold eliminar_person eliminar_persona dbDelete dbDeleteEs
    dsimp only [Option.map]
    rw [countP_id_commute]
    have hfil : (dbEsToEn db).rows.filter (fun r => r.id != idv) =
        (dbEsToEn (DbEs.mk (db.rows.filter (fun r => r.id != idv))
          db.seq)).rows := by
      unfold dbEsToEn
      dsimp only
      rw [List.filter_map]
      rfl
    by_cases hn : db.rows.countP (fun r => r.id == idv) > 0
    · simp only [hn, if_true]
      rw [translateBody_msg, translateStr_deleted]
      unfold dbEsToEn
      dsimp only
      rw [List.filter_map]
      rfl
    · simp only [hn, if_false]
      rw [translateBody_err, translateStr_notfound]
      unfold dbEsToEn
      dsimp only
      rw [List.filter_map]
      rfl

theorem actualizar_commute (db : DbEs) (idv : Int) (q : PersonaRequest)
    (f : Option String) :
    actualizar_person (dbEsToEn db) idv (reqEsToEn q)
        (f.map translateStr) =
      (dbEsToEn (actualizar_persona db idv q f).1,
       ((actualizar_persona db idv q f).2.1,
        translateBody (actualizar_persona db idv q f).2.2)) := by
  cases f with
  | some e =>
    unfold actualizar_person actualizar_persona
    dsimp only [Option.map]
    rw [translateBody_err]
  | none =>
    unfold actualizar_person actualizar_persona dbUpdate dbUpdateEs
    dsimp only [Option.map]
    rw [countP_id_commute, any_coll_commute]
    by_cases h0 : (db.rows.countP (fun r => r.id == idv) == 0)
    · simp only [h0, if_true]
      have hz : db.rows.countP (fun r => r.id == idv) = 0 := by
        rwa [beq_iff_eq] at h0
      simp only [hz, gt_iff_lt, Nat.lt_irrefl, if_false]
      rw [translateBody_err, translateStr_notfound]
    · rw [Bool.not_eq_true] at h0
      simp only [h0, Bool.false_eq_true, if_false]
      by_cases h1 : db.rows.any (fun r => r.id != idv && r.dni == q.dni)
      · simp only [h1, if_true]
        rw [translateBody_err, translateStr_unique]
      · rw [Bool.not_eq_true] at h1
        simp only [h1, Bool.false_eq_true, if_false]
        by_cases hn : db.rows.countP (fun r => r.id == idv) > 0
        · simp only [hn, if_true]
          rw [translateBody_msg, translateStr_updated]
          unfold dbEsToEn
          dsimp only
          rw [List.map_map, List.map_map]
          have hmm : List.map (updRow idv (reqEsToEn q) ∘ personaToPerson)
              db.rows = List.map (personaToPerson ∘ updRowEs idv q) db.rows :=
            List.map_congr_left (fun a _ => updRow_commute idv q a)
          rw [hmm]
        · simp only [hn, if_false]
          rw [translateBody_err, translateStr_notfound]
          unfold dbEsToEn
          dsimp only
          rw [List.map_map, List.map_map]
          have hmm : List.map (updRow idv (reqEsToEn q) ∘ personaToPerson)
              db.rows = List.map (personaToPerson ∘ updRowEs idv q) db.rows :=
            List.map_congr_left (fun a _ => updRow_commute idv q a)
          rw [hmm]

/-- C9 (amended): the two variants are functionally equivalent up to the
field-name renaming of JSON keys together with the translation of the fixed
message strings ("Persona actualizada"→"Person updated",
"Persona eliminada"→"Person deleted", "Persona no encontrada"→"Person not
found") and of the constraint-violation table name: for every request and
storage fault, the English handler on the corresponding store returns the
corresponding store and the same status with the translated body. -/
theorem variant_equivalence (db : DbEs) (r : ReqEs) (f : Option String) :
    applyReq (dbEsToEn db) (reqEsTranslate r) (f.map translateStr) =
      (dbEsToEn (applyReqEs db r f).1,
       ((applyReqEs db r f).2.1,
        translateBody (applyReqEs db r f).2.2)) := by
  cases r with
  | create q => exact crear_commute db q f
  | index => exact listar_commute db f
  | fetch idv => exact obtener_commute db idv f
  | update idv q => exact actualizar_commute db idv q f
  | remove idv => exact eliminar_commute db idv f

/-- The error branch of `to_value` is reachable in general: a map with an
integer key fails to serialize. -/
theorem to_value_map_int_key_fails :
    to_value (RustValue.rMap [(RustValue.rInt 0, RustValue.rInt 0)]) =
      Except.error "key must be a string" := rfl

/-- C10: `serde_json::to_value` never fails on the values the list and
get-by-id handlers serialize — a `Person` struct of one i64 and four
Strings, or a vector of such structs — so the `.unwrap()` calls in
`listar_persons`/`obtener_person` cannot panic, and the produced JSON is
exactly the body the handlers return. -/
theorem to_value_unwrap_safe (p : Person) (ps : List Person) :
    to_value (personValue p) = Except.ok (Person.toJson p) ∧
    to_value (personsValue ps) =
      Except.ok (Json.jarr (ps.map Person.toJson)) := by
  constructor
  · rfl
  · unfold personsValue
    have h : ∀ l : List Person,
        to_value_list (l.map personValue) =
          Except.ok (l.map Person.toJson) := by
      intro l
      induction l with
      | nil => rfl
      | cons x xs ih =>
        rw [List.map_cons, List.map_cons]
        unfold to_value_list
        rw [show to_value (personValue x) =
            Except.ok (Person.toJson x) from rfl, ih]
    unfold to_value
    rw [h ps]
